import Mathlib

/-!
Verification development for the Client-Server-HR speed-test repository
(src/server.py, src/client.py). The Python code is shallowly embedded:
wire messages are lists of byte values (Nat below 256, big-endian as in
the struct module format strings used by the code), the shared statistics
dictionary of the client is a structure, and each stateful loop becomes
an explicit fold or recursion over the list of datagrams it processes.
-/

namespace SpeedTest

/-! Big-endian byte strings, as produced by struct.pack network-order
integer codes (I is 4 bytes, b is 1 byte, H is 2 bytes, Q is 8 bytes). -/

/-- Big-endian encoding of the value v on w bytes (most significant first),
as struct.pack writes network-order unsigned integers. -/
def beBytes : Nat → Nat → List Nat
  | 0, _ => []
  | w + 1, v => beBytes w (v / 256) ++ [v % 256]

/-- Value of a big-endian byte string, as struct.unpack reads it. -/
def beVal (l : List Nat) : Nat := l.foldl (fun acc b => acc * 256 + b) 0

theorem beVal_append_singleton (l : List Nat) (b : Nat) :
    beVal (l ++ [b]) = beVal l * 256 + b := by
  simp [beVal, List.foldl_append]

theorem beBytes_length (w v : Nat) : (beBytes w v).length = w := by
  induction w generalizing v with
  | zero => rfl
  | succ n ih => simp [beBytes, ih]

theorem beVal_beBytes (w v : Nat) : beVal (beBytes w v) = v % 256 ^ w := by
  induction w generalizing v with
  | zero => simp [beBytes, beVal, Nat.mod_one]
  | succ n ih =>
    have h : 256 ^ (n + 1) = 256 * 256 ^ n := by ring
    rw [beBytes, beVal_append_singleton, ih, h, Nat.mod_mul]
    ring

theorem take_append_of_length {α : Type} (l1 l2 : List α) (n : Nat)
    (h : l1.length = n) : (l1 ++ l2).take n = l1 := by
  subst h
  induction l1 with
  | nil => rfl
  | cons a t ih => simp [List.take_succ_cons, ih]

theorem drop_append_of_length {α : Type} (l1 l2 : List α) (n : Nat)
    (h : l1.length = n) : (l1 ++ l2).drop n = l2 := by
  subst h
  induction l1 with
  | nil => rfl
  | cons a t ih => simp [List.drop_succ_cons, ih]

/-! Protocol constants, shared by src/server.py and src/client.py. -/

/-- Magic number identifying valid packets (self.magic_cookie in both files). -/
def magic_cookie : Nat := 0xabcddcba

/-- Offer message type (self.msg_type_offer in src/server.py). -/
def msg_type_offer : Nat := 0x2

/-- Segment size used by the UDP handler (src/server.py line 194). -/
def segment_size : Nat := 1024

/-! Wire codec. The server builds the 9-byte offer with
struct.pack of format !IbHH (src/server.py lines 119-123); the client
decodes it in _discover_server (src/client.py lines 139-144). -/

/-- Offer message bytes: struct.pack(!IbHH, magic_cookie, 0x2, udp_port,
tcp_port) from _broadcast_offer in src/server.py. -/
def encodeOffer (udp_port tcp_port : Nat) : List Nat :=
  beBytes 4 magic_cookie ++ beBytes 1 msg_type_offer ++
    beBytes 2 udp_port ++ beBytes 2 tcp_port

/-- Offer decoding as performed by _discover_server in src/client.py:
a datagram is accepted only if its length is exactly 9, its first four
bytes carry the magic cookie and its type byte is 0x2; the two port
fields are returned. Returning none models the silent discard. -/
def decodeOffer (data : List Nat) : Option (Nat × Nat) :=
  if data.length = 9 then
    let magic := beVal (data.take 4)
    let msg_type := beVal ((data.drop 4).take 1)
    let udp_port := beVal ((data.drop 5).take 2)
    let tcp_port := beVal ((data.drop 7).take 2)
    if magic = magic_cookie ∧ msg_type = msg_type_offer then
      some (udp_port, tcp_port)
    else none
  else none

/-- UDP request bytes: struct.pack(!IbQ, magic_cookie, 0x3, file_size)
from _run_udp_test in src/client.py line 223. -/
def encodeUdpRequest (file_size : Nat) : List Nat :=
  beBytes 4 magic_cookie ++ beBytes 1 0x3 ++ beBytes 8 file_size

/-- UDP request decoding as performed by _handle_udp_speed_test in
src/server.py lines 186-190: struct.unpack(!IbQ, data) raises unless the
datagram is exactly 13 bytes (the exception is caught and the datagram
dropped), then magic and type are checked. -/
def decodeUdpRequest (data : List Nat) : Option Nat :=
  if data.length = 13 then
    let magic := beVal (data.take 4)
    let msg_type := beVal ((data.drop 4).take 1)
    let file_size := beVal (data.drop 5)
    if magic = magic_cookie ∧ msg_type = 0x3 then some file_size else none
  else none

/-- UDP payload bytes: the 21-byte header struct.pack(!IbQQ, magic_cookie,
0x4, total_segments, i) followed by the filler payload of byte 88
(the character X), from _handle_udp_speed_test in src/server.py
lines 200-213. -/
def encodeUdpPayload (total_segments segment_index payload_len : Nat) : List Nat :=
  beBytes 4 magic_cookie ++ beBytes 1 0x4 ++ beBytes 8 total_segments ++
    beBytes 8 segment_index ++ List.replicate payload_len 88

/-- UDP payload header decoding as performed by the receive loop of
_run_udp_test in src/client.py lines 239-248: datagrams shorter than 21
bytes are skipped, the first 21 bytes are unpacked as !IbQQ, and magic
and type are checked; total_segments and segment_index are returned. -/
def decodeUdpPayload (data : List Nat) : Option (Nat × Nat) :=
  if data.length < 21 then none
  else
    let magic := beVal (data.take 4)
    let msg_type := beVal ((data.drop 4).take 1)
    let total_segs := beVal ((data.drop 5).take 8)
    let current_seg := beVal ((data.drop 13).take 8)
    if magic = magic_cookie ∧ msg_type = 0x4 then
      some (total_segs, current_seg)
    else none

/-! Round trips for the codec. -/

theorem decodeOffer_encodeOffer (u t : Nat) (hu : u < 2 ^ 16) (ht : t < 2 ^ 16) :
    decodeOffer (encodeOffer u t) = some (u, t) := by
  have h4 : (beBytes 4 magic_cookie).length = 4 := beBytes_length 4 _
  have h1 : (beBytes 1 msg_type_offer).length = 1 := beBytes_length 1 _
  have h2u : (beBytes 2 u).length = 2 := beBytes_length 2 u
  have h2t : (beBytes 2 t).length = 2 := beBytes_length 2 t
  have hE : encodeOffer u t = beBytes 4 magic_cookie ++
      (beBytes 1 msg_type_offer ++ (beBytes 2 u ++ (beBytes 2 t ++ []))) := by
    simp [encodeOffer]
  have hlen : (encodeOffer u t).length = 9 := by
    simp [encodeOffer, h4, h1, h2u, h2t]
  have htake4 : (encodeOffer u t).take 4 = beBytes 4 magic_cookie := by
    rw [hE, take_append_of_length _ _ 4 h4]
  have hdrop4 : (encodeOffer u t).drop 4 =
      beBytes 1 msg_type_offer ++ (beBytes 2 u ++ (beBytes 2 t ++ [])) := by
    rw [hE, drop_append_of_length _ _ 4 h4]
  have hdrop5 : (encodeOffer u t).drop 5 = beBytes 2 u ++ (beBytes 2 t ++ []) := by
    have h55 : (encodeOffer u t).drop 5 = ((encodeOffer u t).drop 4).drop 1 := by
      rw [List.drop_drop]
    rw [h55, hdrop4, drop_append_of_length _ _ 1 h1]
  have hdrop7 : (encodeOffer u t).drop 7 = beBytes 2 t ++ [] := by
    have h77 : (encodeOffer u t).drop 7 = ((encodeOffer u t).drop 5).drop 2 := by
      rw [List.drop_drop]
    rw [h77, hdrop5, drop_append_of_length _ _ 2 h2u]
  have htake1 : ((encodeOffer u t).drop 4).take 1 = beBytes 1 msg_type_offer := by
    rw [hdrop4, take_append_of_length _ _ 1 h1]
  have htake2u : ((encodeOffer u t).drop 5).take 2 = beBytes 2 u := by
    rw [hdrop5, take_append_of_length _ _ 2 h2u]
  have htake2t : ((encodeOffer u t).drop 7).take 2 = beBytes 2 t := by
    rw [hdrop7, take_append_of_length _ _ 2 h2t]
  rw [decodeOffer, if_pos hlen]
  simp only [htake4, htake1, htake2u, htake2t, beVal_beBytes]
  have hm : magic_cookie % 256 ^ 4 = magic_cookie := by decide
  have hmt : msg_type_offer % 256 ^ 1 = msg_type_offer := by decide
  have hu2 : u % 256 ^ 2 = u := Nat.mod_eq_of_lt (by norm_num at hu ⊢; omega)
  have ht2 : t % 256 ^ 2 = t := Nat.mod_eq_of_lt (by norm_num at ht ⊢; omega)
  rw [hm, hmt, hu2, ht2, if_pos ⟨rfl, rfl⟩]

theorem decodeUdpPayload_encodeUdpPayload (total index plen : Nat)
    (htotal : total < 2 ^ 64) (hindex : index < 2 ^ 64) :
    decodeUdpPayload (encodeUdpPayload total index plen) = some (total, index) := by
  have h4 : (beBytes 4 magic_cookie).length = 4 := beBytes_length 4 _
  have h1 : (beBytes 1 0x4).length = 1 := beBytes_length 1 _
  have h8t : (beBytes 8 total).length = 8 := beBytes_length 8 total
  have h8i : (beBytes 8 index).length = 8 := beBytes_length 8 index
  have hE : encodeUdpPayload total index plen = beBytes 4 magic_cookie ++
      (beBytes 1 0x4 ++ (beBytes 8 total ++
        (beBytes 8 index ++ List.replicate plen 88))) := by
    simp [encodeUdpPayload]
  have hlen : (encodeUdpPayload total index plen).length = 21 + plen := by
    simp [encodeUdpPayload, h4, h1, h8t, h8i]; omega
  have htake4 : (encodeUdpPayload total index plen).take 4 =
      beBytes 4 magic_cookie := by
    rw [hE, take_append_of_length _ _ 4 h4]
  have hdrop4 : (encodeUdpPayload total index plen).drop 4 = beBytes 1 0x4 ++
      (beBytes 8 total ++ (beBytes 8 index ++ List.replicate plen 88)) := by
    rw [hE, drop_append_of_length _ _ 4 h4]
  have hdrop5 : (encodeUdpPayload total index plen).drop 5 =
      beBytes 8 total ++ (beBytes 8 index ++ List.replicate plen 88) := by
    have h55 : (encodeUdpPayload total index plen).drop 5 =
        ((encodeUdpPayload total index plen).drop 4).drop 1 := by
      rw [List.drop_drop]
    rw [h55, hdrop4, drop_append_of_length _ _ 1 h1]
  have hdrop13 : (encodeUdpPayload total index plen).drop 13 =
      beBytes 8 index ++ List.replicate plen 88 := by
    have h13 : (encodeUdpPayload total index plen).drop 13 =
        ((encodeUdpPayload total index plen).drop 5).drop 8 := by
      rw [List.drop_drop]
    rw [h13, hdrop5, drop_append_of_length _ _ 8 h8t]
  have htake1 : ((encodeUdpPayload total index plen).drop 4).take 1 =
      beBytes 1 0x4 := by
    rw [hdrop4, take_append_of_length _ _ 1 h1]
  have htake8t : ((encodeUdpPayload total index plen).drop 5).take 8 =
      beBytes 8 total := by
    rw [hdrop5, take_append_of_length _ _ 8 h8t]
  have htake8i : ((encodeUdpPayload total index plen).drop 13).take 8 =
      beBytes 8 index := by
    rw [hdrop13, take_append_of_length _ _ 8 h8i]
  have hnotlt : ¬ (encodeUdpPayload total index plen).length < 21 := by omega
  rw [decodeUdpPayload, if_neg hnotlt]
  simp only [htake4, htake1, htake8t, htake8i, beVal_beBytes]
  have hm : magic_cookie % 256 ^ 4 = magic_cookie := by decide
  have h4m : (0x4 : Nat) % 256 ^ 1 = 0x4 := by decide
  have htot : total % 256 ^ 8 = total := Nat.mod_eq_of_lt (by norm_num at htotal ⊢; omega)
  have hidx : index % 256 ^ 8 = index := Nat.mod_eq_of_lt (by norm_num at hindex ⊢; omega)
  rw [hm, h4m, htot, hidx, if_pos ⟨rfl, rfl⟩]

/-! Client data model (src/client.py). -/

/-- Enumeration of possible client states (class ClientState). -/
inductive ClientState where
  | STARTUP
  | LOOKING_FOR_SERVER
  | SPEED_TEST
deriving DecidableEq, Repr

/-- The self.statistics dictionary of SpeedTestClient.__init__
(src/client.py lines 43-48). Transfer times are rationals standing for
the float seconds of the code. -/
structure Statistics where
  tcp_times : List ℚ
  udp_times : List ℚ
  udp_packets_received : Nat
  udp_packets_lost : Nat
deriving DecidableEq, Repr

/-- The initial statistics dictionary built in SpeedTestClient.__init__. -/
def initStatistics : Statistics :=
  { tcp_times := [], udp_times := [], udp_packets_received := 0,
    udp_packets_lost := 0 }

/-- One iteration of the discovery loop of _discover_server on a received
datagram: a valid offer switches the client to SPEED_TEST, anything else
leaves it in LOOKING_FOR_SERVER (src/client.py lines 139-150). -/
def discoverStep (data : List Nat) : ClientState :=
  match decodeOffer data with
  | some _ => ClientState.SPEED_TEST
  | none => ClientState.LOOKING_FOR_SERVER

/-! UDP transfer receive loop of _run_udp_test (src/client.py
lines 226-262). Its loop-local state is the received_segments set, the
total_segments optional value, and the number of increments it applied to
the shared udp_packets_received counter. -/

/-- Loop state of the receive loop in _run_udp_test. -/
structure UdpRecvState where
  receivedSegments : Finset Nat
  totalSegments : Option Nat
  packetsReceived : Nat
deriving DecidableEq

/-- Initial loop state (received_segments = set(), total_segments = None,
no packet counted yet). -/
def initUdpRecvState : UdpRecvState :=
  { receivedSegments := ∅, totalSegments := none, packetsReceived := 0 }

/-- Effect of one received datagram on the loop state (src/client.py
lines 239-255): invalid datagrams are skipped; a valid payload inserts
its segment index, fixes total_segments on first sight, and bumps the
shared received-packet counter. -/
def udpRecvStep (st : UdpRecvState) (data : List Nat) : UdpRecvState :=
  match decodeUdpPayload data with
  | none => st
  | some (total_segs, current_seg) =>
    { receivedSegments := insert current_seg st.receivedSegments
      totalSegments :=
        match st.totalSegments with
        | none => some total_segs
        | some t0 => some t0
      packetsReceived := st.packetsReceived + 1 }

/-- The receive loop over a sequence of incoming datagrams, with the
early break of src/client.py lines 258-259 once the number of distinct
received segments equals total_segments; an exhausted list models the
5-second select timeout that ends the transfer. -/
def udpRecvRun : UdpRecvState → List (List Nat) → UdpRecvState
  | st, [] => st
  | st, data :: rest =>
    let st' := udpRecvStep st data
    if st'.totalSegments = some st'.receivedSegments.card then st'
    else udpRecvRun st' rest

/-- End-of-transfer accounting of _run_udp_test (src/client.py
lines 269-279): when total_segments is truthy, packets_lost and the loss
rate are computed, the speed divides by the elapsed time (a zero elapsed
time raises ZeroDivisionError, caught by the enclosing except, so the
stats updates below it do not happen), the transfer time is appended and
udp_packets_lost is assigned. The second component carries the reported
pair of loss rate and speed, none when nothing is reported. -/
def udpFinish (stats : Statistics) (file_size : Nat) (st : UdpRecvState)
    (transfer_time : ℚ) : Statistics × Option (ℚ × ℚ) :=
  match st.totalSegments with
  | some (n + 1) =>
    let total := n + 1
    let packets_lost := total - st.receivedSegments.card
    let loss_rate := ((packets_lost : ℚ) / (total : ℚ)) * 100
    if transfer_time = 0 then (stats, none)
    else
      let speed := ((file_size : ℚ) * 8) / transfer_time
      ({ stats with udp_times := stats.udp_times ++ [transfer_time],
                    udp_packets_lost := packets_lost },
       some (loss_rate, speed))
  | _ => (stats, none)

/-- One whole UDP transfer of _run_udp_test as its effect on the shared
statistics: run the receive loop over the datagrams that arrive, add the
counted packets to udp_packets_received (the loop increments it once per
valid datagram), then do the end-of-transfer accounting. -/
def runUdpTransfer (stats : Statistics) (file_size : Nat)
    (datagrams : List (List Nat)) (transfer_time : ℚ) :
    Statistics × Option (ℚ × ℚ) :=
  let st := udpRecvRun initUdpRecvState datagrams
  let stats1 := { stats with
    udp_packets_received := stats.udp_packets_received + st.packetsReceived }
  udpFinish stats1 file_size st transfer_time

/-- End-of-transfer accounting of _run_tcp_test (src/client.py
lines 194-199): only a positive transfer time computes the speed and
appends the time to tcp_times; otherwise the code merely prints that the
speed calculation is skipped, leaving the statistics untouched. -/
def tcpFinish (stats : Statistics) (file_size : Nat) (transfer_time : ℚ) :
    Statistics × Option ℚ :=
  if 0 < transfer_time then
    ({ stats with tcp_times := stats.tcp_times ++ [transfer_time] },
     some (((file_size : ℚ) * 8) / transfer_time))
  else (stats, none)

/-- The printed UDP loss rate of _print_statistics (src/client.py
line 338). -/
def printedLossRate (stats : Statistics) : ℚ :=
  ((stats.udp_packets_lost : ℚ) /
    ((stats.udp_packets_received : ℚ) + (stats.udp_packets_lost : ℚ))) * 100

/-! Server data model (src/server.py). -/

/-- Models Python random.randint(a, b), which draws uniformly from the
closed interval from a to b, both endpoints included; r is the value
drawn from the random source. -/
def randint (a b r : Nat) : Nat := a + r % (b - a + 1)

/-- The two service ports chosen once in SpeedTestServer.__init__
(src/server.py lines 27-28) and the fields that never change afterwards. -/
structure SpeedTestServer where
  udp_port : Nat
  tcp_port : Nat
deriving DecidableEq, Repr

/-- Server construction: udp_port = random.randint(20000, 65000) and
tcp_port = random.randint(20000, 65000). -/
def mkServer (r1 r2 : Nat) : SpeedTestServer :=
  { udp_port := randint 20000 65000 r1, tcp_port := randint 20000 65000 r2 }

/-- The offer message constructed once before the broadcast loop of
_broadcast_offer (src/server.py lines 119-123). -/
def offerMessage (s : SpeedTestServer) : List Nat :=
  encodeOffer s.udp_port s.tcp_port

/-- Total segment count computed by _handle_udp_speed_test
(src/server.py line 195): (file_size + segment_size - 1) // segment_size. -/
def totalSegmentsOf (file_size : Nat) : Nat :=
  (file_size + segment_size - 1) / segment_size

/-- The payload datagrams sent by the loop of _handle_udp_speed_test
(src/server.py lines 200-213) while the server keeps running: one
datagram per segment index below total_segments, each carrying
min(segment_size, file_size - i * segment_size) filler bytes. -/
def serverDatagrams (file_size : Nat) : List (List Nat) :=
  (List.range (totalSegmentsOf file_size)).map fun i =>
    encodeUdpPayload (totalSegmentsOf file_size) i
      (min segment_size (file_size - i * segment_size))

/-- The whole UDP request handler _handle_udp_speed_test as the list of
datagrams it sends back: an invalid request (bad length caught as a
struct.error, or bad magic or type) sends nothing. -/
def handleUdpSpeedTest (data : List Nat) : List (List Nat) :=
  match decodeUdpRequest data with
  | none => []
  | some file_size => serverDatagrams file_size

/-- One client round as run by start and _run_speed_test (src/client.py
lines 73-93 and 287-321): the shared statistics entering the round are
whatever the previous rounds left (no reset happens anywhere in the
loop); each TCP transfer contributes its tcpFinish accounting and each
UDP transfer its runUdpTransfer accounting, serialized in the order the
concurrent writes land. -/
def runRound (stats : Statistics) (file_size : Nat) (tcpDurations : List ℚ)
    (udpRuns : List (List (List Nat) × ℚ)) : Statistics :=
  let s1 := tcpDurations.foldl (fun s d => (tcpFinish s file_size d).1) stats
  udpRuns.foldl (fun s r => (runUdpTransfer s file_size r.1 r.2).1) s1

/-! Discard behaviour of the three decoders. -/

theorem decodeOffer_none_of (data : List Nat)
    (h : data.length ≠ 9 ∨ beVal (data.take 4) ≠ magic_cookie) :
    decodeOffer data = none := by
  unfold decodeOffer
  rcases h with h | h
  · rw [if_neg h]
  · by_cases h9 : data.length = 9
    · rw [if_pos h9]
      exact if_neg fun hc => h hc.1
    · rw [if_neg h9]

theorem decodeUdpPayload_none_of (data : List Nat)
    (h : data.length < 21 ∨ beVal (data.take 4) ≠ magic_cookie) :
    decodeUdpPayload data = none := by
  unfold decodeUdpPayload
  rcases h with h | h
  · rw [if_pos h]
  · by_cases h21 : data.length < 21
    · rw [if_pos h21]
    · rw [if_neg h21]
      exact if_neg fun hc => h hc.1

theorem decodeUdpRequest_none_of (data : List Nat)
    (h : data.length ≠ 13 ∨ beVal (data.take 4) ≠ magic_cookie) :
    decodeUdpRequest data = none := by
  unfold decodeUdpRequest
  rcases h with h | h
  · rw [if_neg h]
  · by_cases h13 : data.length = 13
    · rw [if_pos h13]
      exact if_neg fun hc => h hc.1
    · rw [if_neg h13]

/-- Claim C1: decoding the 9-byte offer message produced by encoding the
ports u and t (magic 0xABCDDCBA, type 0x2, big-endian uint16 ports)
yields back exactly u and t: the offer wire codec round-trips. -/
theorem c1_offer_roundtrip (u t : Nat) (hu : u < 2 ^ 16) (ht : t < 2 ^ 16) :
    decodeOffer (encodeOffer u t) = some (u, t) :=
  decodeOffer_encodeOffer u t hu ht

theorem c1_offer_roundtrip_witness :
    decodeOffer (encodeOffer 30000 40000) = some (30000, 40000) :=
  c1_offer_roundtrip 30000 40000 (by decide) (by decide)

/-- Claim C2: a datagram whose magic cookie differs from 0xABCDDCBA or
whose length is malformed for the expected format is discarded by every
decoder, without an error reaching the top level: the offer decoder and
the discovery state, the payload decoder and the receive-loop state, and
the server request decoder and the set of datagrams it would send are
all unaffected. -/
theorem c2_invalid_datagram_discarded (data : List Nat) (st : UdpRecvState) :
    (data.length ≠ 9 ∨ beVal (data.take 4) ≠ magic_cookie →
      decodeOffer data = none ∧
        discoverStep data = ClientState.LOOKING_FOR_SERVER) ∧
    (data.length < 21 ∨ beVal (data.take 4) ≠ magic_cookie →
      decodeUdpPayload data = none ∧ udpRecvStep st data = st) ∧
    (data.length ≠ 13 ∨ beVal (data.take 4) ≠ magic_cookie →
      decodeUdpRequest data = none ∧ handleUdpSpeedTest data = []) := by
  refine ⟨fun h => ?_, fun h => ?_, fun h => ?_⟩
  · have hd := decodeOffer_none_of data h
    exact ⟨hd, by simp [discoverStep, hd]⟩
  · have hd := decodeUdpPayload_none_of data h
    exact ⟨hd, by simp [udpRecvStep, hd]⟩
  · have hd := decodeUdpRequest_none_of data h
    exact ⟨hd, by simp [handleUdpSpeedTest, hd]⟩

theorem c2_invalid_datagram_discarded_witness :
    (decodeOffer [1, 2, 3] = none ∧
      discoverStep [1, 2, 3] = ClientState.LOOKING_FOR_SERVER) ∧
    (decodeUdpPayload [1, 2, 3] = none ∧
      udpRecvStep initUdpRecvState [1, 2, 3] = initUdpRecvState) ∧
    (decodeUdpRequest [1, 2, 3] = none ∧ handleUdpSpeedTest [1, 2, 3] = []) :=
  ⟨(c2_invalid_datagram_discarded [1, 2, 3] initUdpRecvState).1 (by decide),
   (c2_invalid_datagram_discarded [1, 2, 3] initUdpRecvState).2.1 (by decide),
   (c2_invalid_datagram_discarded [1, 2, 3] initUdpRecvState).2.2 (by decide)⟩

/-- Claim C4, counterexample: for a TCP transfer with measured duration 0
the code does not keep the record; the duration is not recorded in
tcp_times (the else branch of src/client.py lines 194-199 only prints),
so the claim that the time is still recorded fails at duration 0. -/
theorem c4_counterexample :
    ¬ ((0 : ℚ) ∈ (tcpFinish initStatistics 100 0).1.tcp_times) ∧
      (tcpFinish initStatistics 100 0).2 = none := by
  constructor
  · simp [tcpFinish, initStatistics]
  · rfl

/-- Claim C4 as amended: for a TCP transfer whose measured duration is
non-positive, no speed is computed and no division by the zero duration
occurs, and the record is dropped: the duration is not appended to the
statistics, so the round sees no trace of it; when the duration is
positive the speed equals file_size * 8 / duration and the duration is
appended. -/
theorem c4_tcp_degenerate_duration (stats : Statistics) (fs : Nat) (d : ℚ) :
    (d ≤ 0 → tcpFinish stats fs d = (stats, none)) ∧
    (0 < d → tcpFinish stats fs d =
      ({ stats with tcp_times := stats.tcp_times ++ [d] },
        some (((fs : ℚ) * 8) / d))) ∧
    (d ≤ 0 → (runRound stats fs [d] []).tcp_times = stats.tcp_times) := by
  refine ⟨fun h => ?_, fun h => ?_, fun h => ?_⟩
  · simp [tcpFinish, not_lt.2 h]
  · simp [tcpFinish, h]
  · simp [runRound, tcpFinish, not_lt.2 h]

theorem c4_tcp_degenerate_duration_witness :
    tcpFinish initStatistics 100 0 = (initStatistics, none) ∧
      tcpFinish initStatistics 100 2 =
        ({ initStatistics with
            tcp_times := initStatistics.tcp_times ++ [2] },
          some ((((100 : Nat) : ℚ) * 8) / 2)) :=
  ⟨(c4_tcp_degenerate_duration initStatistics 100 0).1 le_rfl,
   (c4_tcp_degenerate_duration initStatistics 100 2).2.1 (by norm_num)⟩

/-- Claim C5, counterexample: statistics are never reset between rounds
(neither start nor _run_speed_test in src/client.py touches
self.statistics other than through the transfers), so a second round
starting from the statistics left by a first round does not equal the
same round run from fresh statistics: the first round's TCP time is
still there. -/
theorem c5_counterexample :
    runRound (runRound initStatistics 100 [1] []) 100 [2] [] ≠
      runRound initStatistics 100 [2] [] := by
  decide

/-- Claim C5 as amended: the session statistics are initialized once in
SpeedTestClient.__init__ and never reset at the start of a round; a
round run from any prior statistics keeps them and appends its own
positive TCP durations, so after a round the statistics accumulate all
transfers since client startup rather than only the round's own. -/
theorem c5_statistics_accumulate (stats : Statistics) (fs : Nat) (ds : List ℚ) :
    (runRound stats fs ds []).tcp_times =
        stats.tcp_times ++ ds.filter (fun d => decide (0 < d)) ∧
    (runRound stats fs ds []).udp_times = stats.udp_times ∧
    (runRound stats fs ds []).udp_packets_received =
      stats.udp_packets_received ∧
    (runRound stats fs ds []).udp_packets_lost = stats.udp_packets_lost := by
  induction ds generalizing stats with
  | nil => simp [runRound]
  | cons d rest ih =>
    have hstep : runRound stats fs (d :: rest) [] =
        runRound (tcpFinish stats fs d).1 fs rest [] := rfl
    by_cases h : 0 < d
    · have htf : (tcpFinish stats fs d).1 =
          { stats with tcp_times := stats.tcp_times ++ [d] } := by
        simp [tcpFinish, h]
      rw [hstep, htf]
      have := ih { stats with tcp_times := stats.tcp_times ++ [d] }
      simpa [List.filter_cons, h] using this
    · have htf : (tcpFinish stats fs d).1 = stats := by
        simp [tcpFinish, h]
      rw [hstep, htf]
      have := ih stats
      simpa [List.filter_cons, h] using this

/-- Claim C6: the set insert of a received segment index is idempotent:
receiving a payload datagram whose segment index was already seen leaves
the tracked set, and hence segments_received, unchanged. -/
theorem c6_duplicate_segment_idempotent (st : UdpRecvState) (data : List Nat)
    (total index : Nat) (hdec : decodeUdpPayload data = some (total, index))
    (hmem : index ∈ st.receivedSegments) :
    (udpRecvStep st data).receivedSegments = st.receivedSegments ∧
    (udpRecvStep st data).receivedSegments.card = st.receivedSegments.card := by
  have h : (udpRecvStep st data).receivedSegments =
      insert index st.receivedSegments := by
    simp [udpRecvStep, hdec]
  rw [h, Finset.insert_eq_self.2 hmem]
  exact ⟨rfl, rfl⟩

theorem c6_duplicate_segment_idempotent_witness :
    (udpRecvStep ⟨{1}, some 2, 3⟩ (encodeUdpPayload 2 1 5)).receivedSegments =
        ({1} : Finset Nat) ∧
      (udpRecvStep ⟨{1}, some 2, 3⟩
          (encodeUdpPayload 2 1 5)).receivedSegments.card =
        ({1} : Finset Nat).card :=
  c6_duplicate_segment_idempotent ⟨{1}, some 2, 3⟩ (encodeUdpPayload 2 1 5)
    2 1 (by decide) (by decide)

/-- Claim C7: a UDP transfer requested with file_size 0 makes the server
compute total_segments 0 and send no payload datagram; the client's
receive loop ends with no segment received, the statistics are left
exactly as they were (0 received, 0 lost from fresh statistics), and the
loss-rate division is never reached (no report is produced). -/
theorem c7_zero_file_size (t : ℚ) :
    totalSegmentsOf 0 = 0 ∧ serverDatagrams 0 = [] ∧
    (udpRecvRun initUdpRecvState (serverDatagrams 0)).receivedSegments.card
      = 0 ∧
    runUdpTransfer initStatistics 0 (serverDatagrams 0) t =
      (initStatistics, none) :=
  ⟨rfl, rfl, rfl, rfl⟩

/-- Claim C8, counterexample: random.randint(20000, 65000) includes both
endpoints, so a server whose random draw lands on the top of the range
gets udp_port 65000, which is not below 65000: the half-open range claim
fails. -/
theorem c8_counterexample :
    (mkServer 45000 0).udp_port = 65000 ∧
      ¬ ((mkServer 45000 0).udp_port < 65000) := by
  constructor
  · decide
  · decide

/-- Claim C8 as amended: both service ports chosen at startup lie in the
closed range from 20000 to 65000 (the upper endpoint included, as
random.randint draws inclusively), they fit the uint16 offer field, and
the broadcast offer message decodes back to exactly the ports fixed at
construction, which never change. -/
theorem c8_ports_in_closed_range (r1 r2 : Nat) :
    20000 ≤ (mkServer r1 r2).udp_port ∧ (mkServer r1 r2).udp_port ≤ 65000 ∧
    20000 ≤ (mkServer r1 r2).tcp_port ∧ (mkServer r1 r2).tcp_port ≤ 65000 ∧
    decodeOffer (offerMessage (mkServer r1 r2)) =
      some ((mkServer r1 r2).udp_port, (mkServer r1 r2).tcp_port) := by
  have hu1 : 20000 ≤ (mkServer r1 r2).udp_port := by
    simp [mkServer, randint]
  have hu2 : (mkServer r1 r2).udp_port ≤ 65000 := by
    simp only [mkServer, randint]
    omega
  have ht1 : 20000 ≤ (mkServer r1 r2).tcp_port := by
    simp [mkServer, randint]
  have ht2 : (mkServer r1 r2).tcp_port ≤ 65000 := by
    simp only [mkServer, randint]
    omega
  refine ⟨hu1, hu2, ht1, ht2, ?_⟩
  exact decodeOffer_encodeOffer _ _ (by norm_num at hu2 ⊢; omega)
    (by norm_num at ht2 ⊢; omega)

/-- Claim C9, counterexample: the transfer tasks themselves write the
shared statistics: already a single TCP transfer with positive duration
changes the statistics before any join, so it is false that only a
post-join aggregator mutates them. -/
theorem c9_counterexample :
    (tcpFinish initStatistics 100 1).1 ≠ initStatistics := by
  decide

/-- Claim C9 as amended: each transfer task writes the shared statistics
itself at its own completion, while sibling tasks may still be running:
the TCP task appends its duration to tcp_times when it is positive, and
the UDP task adds one to udp_packets_received for every valid datagram
it processed; the post-join step only reads the statistics to print
them. -/
theorem c9_tasks_write_statistics (stats : Statistics) (fs : Nat) (d t : ℚ)
    (ds : List (List Nat)) (hd : 0 < d) :
    (tcpFinish stats fs d).1.tcp_times = stats.tcp_times ++ [d] ∧
    (runUdpTransfer stats fs ds t).1.udp_packets_received =
      stats.udp_packets_received +
        (udpRecvRun initUdpRecvState ds).packetsReceived := by
  constructor
  · simp [tcpFinish, hd]
  · have h : ∀ st : UdpRecvState,
        (udpFinish { stats with udp_packets_received :=
            stats.udp_packets_received + st.packetsReceived } fs st
          t).1.udp_packets_received =
          stats.udp_packets_received + st.packetsReceived := by
      intro st
      rcases st with ⟨r, o, p⟩
      rcases o with _ | k
      · rfl
      · rcases k with _ | n
        · rfl
        · unfold udpFinish
          by_cases ht : t = 0
          · simp [ht]
          · simp [ht]
    exact h _

theorem c9_tasks_write_statistics_witness :
    (tcpFinish initStatistics 100 1).1.tcp_times =
        initStatistics.tcp_times ++ [1] ∧
      (runUdpTransfer initStatistics 100 [] 1).1.udp_packets_received =
        initStatistics.udp_packets_received +
          (udpRecvRun initUdpRecvState []).packetsReceived :=
  c9_tasks_write_statistics initStatistics 100 1 1 [] (by norm_num)

/-! Behaviour of the receive loop on the full server datagram stream. -/

theorem udpRecvRun_complete (T : Nat) (dg : Nat → List Nat)
    (hdec : ∀ i, i < T → decodeUdpPayload (dg i) = some (T, i)) :
    ∀ k a, a + k = T → 1 ≤ k →
      udpRecvRun
          { receivedSegments := Finset.range a,
            totalSegments := if a = 0 then none else some T,
            packetsReceived := a }
          ((List.range' a k).map dg) =
        { receivedSegments := Finset.range T, totalSegments := some T,
          packetsReceived := T } := by
  intro k
  induction k with
  | zero => intro a h h1; omega
  | succ n ih =>
    intro a hak hk1
    have ha : a < T := by omega
    have hstep : udpRecvStep
        { receivedSegments := Finset.range a,
          totalSegments := if a = 0 then none else some T,
          packetsReceived := a } (dg a) =
        { receivedSegments := Finset.range (a + 1), totalSegments := some T,
          packetsReceived := a + 1 } := by
      unfold udpRecvStep
      rw [hdec a ha]
      by_cases h0 : a = 0 <;> simp [h0, Finset.range_succ]
    rw [List.range'_succ, List.map_cons]
    show (let st' := udpRecvStep _ (dg a);
      if st'.totalSegments = some st'.receivedSegments.card then st'
      else udpRecvRun st' ((List.range' (a + 1) n).map dg)) = _
    rw [hstep]
    simp only [Finset.card_range]
    rcases n with _ | m
    · have haT : a + 1 = T := by omega
      rw [if_pos (by rw [haT])]
      rw [haT]
    · have haT : a + 1 ≠ T := by omega
      rw [if_neg (by simp; omega)]
      have h2 := ih (a + 1) (by omega) (by omega)
      rw [if_neg (by omega)] at h2
      simpa using h2

theorem udpRecvRun_serverDatagrams (F : Nat) (h64 : F < 2 ^ 64) (hF : 1 ≤ F) :
    udpRecvRun initUdpRecvState (serverDatagrams F) =
      { receivedSegments := Finset.range (totalSegmentsOf F),
        totalSegments := some (totalSegmentsOf F),
        packetsReceived := totalSegmentsOf F } := by
  have hT1 : 1 ≤ totalSegmentsOf F := by
    unfold totalSegmentsOf segment_size
    omega
  have hTF : totalSegmentsOf F ≤ F := by
    unfold totalSegmentsOf segment_size
    omega
  have hT64 : totalSegmentsOf F < 2 ^ 64 := by omega
  have hdec : ∀ i, i < totalSegmentsOf F →
      decodeUdpPayload (encodeUdpPayload (totalSegmentsOf F) i
        (min segment_size (F - i * segment_size))) =
        some (totalSegmentsOf F, i) :=
    fun i hi => decodeUdpPayload_encodeUdpPayload _ _ _ hT64 (by omega)
  have h0 := udpRecvRun_complete (totalSegmentsOf F) _ hdec
    (totalSegmentsOf F) 0 (by omega) hT1
  rw [if_pos rfl, Finset.range_zero] at h0
  rw [serverDatagrams, List.range_eq_range']
  exact h0

theorem map_decode_serverDatagrams (T F : Nat) (hT64 : T < 2 ^ 64) :
    ∀ l : List Nat, (∀ j ∈ l, j < 2 ^ 64) →
      (l.map fun i => encodeUdpPayload T i
          (min segment_size (F - i * segment_size))).map decodeUdpPayload =
        l.map fun i => some (T, i) := by
  intro l hl
  induction l with
  | nil => rfl
  | cons a rest ih =>
    simp only [List.map_cons]
    rw [decodeUdpPayload_encodeUdpPayload _ _ _ hT64 (hl a (by simp)),
      ih (fun j hj => hl j (by simp [hj]))]

/-- Claim C3: for a UDP transfer with requested file_size F (F fits the
uint64 wire field and is positive, and the elapsed time is nonzero) the
server computes total_segments as the ceiling of F / 1024, sends exactly
that many payload datagrams whose 0-based segment indices are exactly
0, 1, ..., total_segments - 1 (hence distinct), and a client that
receives all of them ends with segments_received equal to total_segments,
zero packets counted lost, and a reported loss rate of 0. -/
theorem c3_udp_transfer (F : Nat) (stats : Statistics) (t : ℚ)
    (h64 : F < 2 ^ 64) (hF : 1 ≤ F) (ht : t ≠ 0) :
    (F ≤ segment_size * totalSegmentsOf F ∧
      segment_size * totalSegmentsOf F < F + segment_size) ∧
    (serverDatagrams F).length = totalSegmentsOf F ∧
    (serverDatagrams F).map decodeUdpPayload =
      (List.range (totalSegmentsOf F)).map
        (fun i => some (totalSegmentsOf F, i)) ∧
    (udpRecvRun initUdpRecvState (serverDatagrams F)).receivedSegments.card =
      totalSegmentsOf F ∧
    (runUdpTransfer stats F (serverDatagrams F) t).1.udp_packets_lost = 0 ∧
    (runUdpTransfer stats F (serverDatagrams F) t).2 =
      some (0, ((F : ℚ) * 8) / t) := by
  have hT1 : 1 ≤ totalSegmentsOf F := by
    unfold totalSegmentsOf segment_size
    omega
  have hTF : totalSegmentsOf F ≤ F := by
    unfold totalSegmentsOf segment_size
    omega
  have hT64 : totalSegmentsOf F < 2 ^ 64 := by omega
  have hrun := udpRecvRun_serverDatagrams F h64 hF
  refine ⟨?_, ?_, ?_, ?_, ?_⟩
  · unfold totalSegmentsOf segment_size
    omega
  · simp [serverDatagrams]
  · rw [serverDatagrams]
    exact map_decode_serverDatagrams _ F hT64 _
      fun j hj => by have := List.mem_range.1 hj; omega
  · rw [hrun]
    simp
  · obtain ⟨n, hn⟩ : ∃ n, totalSegmentsOf F = n + 1 :=
      ⟨totalSegmentsOf F - 1, by omega⟩
    unfold runUdpTransfer
    rw [hrun, hn]
    unfold udpFinish
    simp only [Finset.card_range, Nat.sub_self, if_neg ht]
    refine ⟨trivial, by simp⟩

theorem c3_udp_transfer_witness :
    ((1 ≤ segment_size * totalSegmentsOf 1 ∧
      segment_size * totalSegmentsOf 1 < 1 + segment_size) ∧
    (serverDatagrams 1).length = totalSegmentsOf 1 ∧
    (serverDatagrams 1).map decodeUdpPayload =
      (List.range (totalSegmentsOf 1)).map
        (fun i => some (totalSegmentsOf 1, i)) ∧
    (udpRecvRun initUdpRecvState (serverDatagrams 1)).receivedSegments.card =
      totalSegmentsOf 1 ∧
    (runUdpTransfer initStatistics 1 (serverDatagrams 1) 1).1.udp_packets_lost
      = 0 ∧
    (runUdpTransfer initStatistics 1 (serverDatagrams 1) 1).2 =
      some (0, (((1 : Nat) : ℚ) * 8) / 1)) :=
  c3_udp_transfer 1 initStatistics 1 (by decide) (by decide) (by norm_num)

/-! Effect of one UDP transfer on the two shared packet counters. -/

theorem runUdpTransfer_received (s : Statistics) (fs : Nat)
    (ds : List (List Nat)) (t : ℚ) :
    (runUdpTransfer s fs ds t).1.udp_packets_received =
      s.udp_packets_received +
        (udpRecvRun initUdpRecvState ds).packetsReceived := by
  unfold runUdpTransfer
  generalize udpRecvRun initUdpRecvState ds = st
  rcases st with ⟨r, o, p⟩
  rcases o with _ | k
  · rfl
  · rcases k with _ | n
    · rfl
    · unfold udpFinish
      by_cases htt : t = 0 <;> simp [htt]

theorem runUdpTransfer_lost (s : Statistics) (fs : Nat) (ds : List (List Nat))
    (t : ℚ) (n : Nat)
    (h : (udpRecvRun initUdpRecvState ds).totalSegments = some (n + 1))
    (ht : t ≠ 0) :
    (runUdpTransfer s fs ds t).1.udp_packets_lost =
      (n + 1) - (udpRecvRun initUdpRecvState ds).receivedSegments.card := by
  unfold runUdpTransfer
  generalize hst : udpRecvRun initUdpRecvState ds = st at h ⊢
  rcases st with ⟨r, o, p⟩
  simp only at h
  subst h
  unfold udpFinish
  simp [if_neg ht]

/-- Claim C10: the aggregate loss rate printed after a round equals
udp_packets_lost / (udp_packets_received + udp_packets_lost), where
udp_packets_received is incremented once per valid payload datagram
processed (duplicates of an already-seen index included) and
udp_packets_lost is assigned, not accumulated, by each finishing UDP
transfer: after two UDP transfers run in sequence on the shared
statistics, the received counter sums both transfers' datagram counts
while the lost counter holds only the value written by the last
transfer. -/
theorem c10_aggregate_loss_rate (stats0 : Statistics) (fs : Nat)
    (ds1 ds2 : List (List Nat)) (t1 t2 : ℚ) (n2 : Nat)
    (h2 : (udpRecvRun initUdpRecvState ds2).totalSegments = some (n2 + 1))
    (ht2 : t2 ≠ 0) :
    (runUdpTransfer (runUdpTransfer stats0 fs ds1 t1).1 fs ds2
        t2).1.udp_packets_received =
      stats0.udp_packets_received +
        (udpRecvRun initUdpRecvState ds1).packetsReceived +
        (udpRecvRun initUdpRecvState ds2).packetsReceived ∧
    (runUdpTransfer (runUdpTransfer stats0 fs ds1 t1).1 fs ds2
        t2).1.udp_packets_lost =
      (n2 + 1) - (udpRecvRun initUdpRecvState ds2).receivedSegments.card ∧
    printedLossRate
        (runUdpTransfer (runUdpTransfer stats0 fs ds1 t1).1 fs ds2 t2).1 =
      ((((n2 + 1) -
          (udpRecvRun initUdpRecvState ds2).receivedSegments.card : Nat)) : ℚ) /
        (((stats0.udp_packets_received +
            (udpRecvRun initUdpRecvState ds1).packetsReceived +
            (udpRecvRun initUdpRecvState ds2).packetsReceived : Nat) : ℚ) +
          ((((n2 + 1) -
              (udpRecvRun initUdpRecvState ds2).receivedSegments.card :
                Nat)) : ℚ)) * 100 := by
  have ha : (runUdpTransfer (runUdpTransfer stats0 fs ds1 t1).1 fs ds2
      t2).1.udp_packets_received =
      stats0.udp_packets_received +
        (udpRecvRun initUdpRecvState ds1).packetsReceived +
        (udpRecvRun initUdpRecvState ds2).packetsReceived := by
    rw [runUdpTransfer_received, runUdpTransfer_received]
  have hb := runUdpTransfer_lost (runUdpTransfer stats0 fs ds1 t1).1 fs ds2 t2
    n2 h2 ht2
  refine ⟨ha, hb, ?_⟩
  simp only [printedLossRate, ha, hb]

theorem c10_aggregate_loss_rate_witness :
    (runUdpTransfer (runUdpTransfer initStatistics 100
          [encodeUdpPayload 2 0 1, encodeUdpPayload 2 0 1,
            encodeUdpPayload 2 1 1] 1).1 100 [encodeUdpPayload 2 0 1]
        1).1.udp_packets_received =
      initStatistics.udp_packets_received +
        (udpRecvRun initUdpRecvState
          [encodeUdpPayload 2 0 1, encodeUdpPayload 2 0 1,
            encodeUdpPayload 2 1 1]).packetsReceived +
        (udpRecvRun initUdpRecvState
          [encodeUdpPayload 2 0 1]).packetsReceived ∧
    (runUdpTransfer (runUdpTransfer initStatistics 100
          [encodeUdpPayload 2 0 1, encodeUdpPayload 2 0 1,
            encodeUdpPayload 2 1 1] 1).1 100 [encodeUdpPayload 2 0 1]
        1).1.udp_packets_lost =
      (1 + 1) - (udpRecvRun initUdpRecvState
          [encodeUdpPayload 2 0 1]).receivedSegments.card ∧
    printedLossRate (runUdpTransfer (runUdpTransfer initStatistics 100
          [encodeUdpPayload 2 0 1, encodeUdpPayload 2 0 1,
            encodeUdpPayload 2 1 1] 1).1 100 [encodeUdpPayload 2 0 1]
        1).1 =
      ((((1 + 1) - (udpRecvRun initUdpRecvState
          [encodeUdpPayload 2 0 1]).receivedSegments.card : Nat)) : ℚ) /
        (((initStatistics.udp_packets_received +
            (udpRecvRun initUdpRecvState
              [encodeUdpPayload 2 0 1, encodeUdpPayload 2 0 1,
                encodeUdpPayload 2 1 1]).packetsReceived +
            (udpRecvRun initUdpRecvState
              [encodeUdpPayload 2 0 1]).packetsReceived : Nat) : ℚ) +
          ((((1 + 1) - (udpRecvRun initUdpRecvState
              [encodeUdpPayload 2 0 1]).receivedSegments.card :
                Nat)) : ℚ)) * 100 :=
  c10_aggregate_loss_rate initStatistics 100
    [encodeUdpPayload 2 0 1, encodeUdpPayload 2 0 1, encodeUdpPayload 2 1 1]
    [encodeUdpPayload 2 0 1] 1 1 1 (by decide) (by decide)

end SpeedTest

